import Mathlib

/-!
# underlay: the URL filter and its engine binding

A shallow embedding of `src/cpp/url_filter.{h,cpp}` (class `UrlFilter`) and of the two
instance methods of `src/cpp/engine_core.cpp` (class `EngineCore`), followed by the
properties of the filter that the specification states.

* A `std::string` is a finite sequence of bytes: `CppString`.
* `std::vector<std::string> patterns` is a list of `CppString`, `push_back` appends at the end.
* `std::mutex filterMutex` serialises the three methods; the embedding is sequential and
  every method is one atomic step on the state.
-/

namespace Underlay

/-- A `std::string`: a sequence of `char`, each one byte. -/
abbrev CppString := List UInt8

/-- The bytes of a string literal of the source (UTF-8, as the compiler stores it). -/
def lit (s : String) : CppString :=
  s.data.flatMap String.utf8EncodeChar

/-- The scan of `std::string::find` from position `pos` on, over the part `rest` of the
string that starts at `pos`: the lowest position at which `pat` can be read in full, or
`none` for `std::string::npos`. -/
def findFrom (pat : CppString) : CppString → Nat → Option Nat
  | [], pos => if pat.isPrefixOf [] then some pos else none
  | c :: rest, pos =>
      if pat.isPrefixOf (c :: rest) then some pos else findFrom pat rest (pos + 1)

/-- The call `s.find(pat)` of `std::string` (start position 0): the lowest `xpos` with
`xpos + pat.size() <= s.size()` and `s[xpos + i] == pat[i]` for every `i < pat.size()`;
`none` stands for `std::string::npos`. -/
def find (s pat : CppString) : Option Nat :=
  findFrom pat s 0

/-- The data members of `class UrlFilter` (`url_filter.h`): the vector of patterns. -/
structure UrlFilter where
  patterns : List CppString
  deriving DecidableEq, Repr

namespace UrlFilter

/-- The constructor `UrlFilter::UrlFilter() {}`: the vector is default-constructed, empty. -/
def new : UrlFilter :=
  { patterns := [] }

/-- The method `UrlFilter::AddPattern`: `patterns.push_back(pattern)`. -/
def AddPattern (self : UrlFilter) (pattern : CppString) : UrlFilter :=
  { patterns := self.patterns ++ [pattern] }

/-- The range-for loop of `UrlFilter::ShouldBlock` over the patterns still to visit. -/
def shouldBlockLoop (url : CppString) : List CppString → Bool
  | [] => false
  | pattern :: more =>
      if find url pattern != none then true else shouldBlockLoop url more

/-- The method `UrlFilter::ShouldBlock`. -/
def ShouldBlock (self : UrlFilter) (url : CppString) : Bool :=
  shouldBlockLoop url self.patterns

/-- The method `UrlFilter::Clear`: `patterns.clear()`. -/
def Clear (_self : UrlFilter) : UrlFilter :=
  { patterns := [] }

end UrlFilter

/-! ## The engine binding (`engine_core.cpp`)

The two instance methods are written against node-addon-api (`napi.h`), which is not part
of the repository. The embedding keeps of it what the methods use: the type of a value,
the UTF-8 bytes of a string value, the properties of an object, and the exception that is
pending in the environment when the method returns. -/

/-- A JavaScript value as the addon sees it through `Napi::Value`, one constructor per
`napi_valuetype`. A string value carries the bytes that `Napi::String::Utf8Value()`
returns for it; an object carries its own properties in creation order. -/
inductive NapiValue where
  | undefined
  | null
  | boolean (b : Bool)
  | number (bits : Nat)
  | string (utf8 : CppString)
  | symbol (id : Nat)
  | object (props : List (String × NapiValue))
  | func (id : Nat)
  | externalRef (id : Nat)
  | bigint (n : Int)

namespace NapiValue

/-- The test `Napi::Value::IsString()`: the value's type is `napi_string`. -/
def IsString : NapiValue → Bool
  | string _ => true
  | _ => false

/-- The conversion `As<Napi::String>().Utf8Value()`, which the methods reach only behind
`IsString()`; on any other value the cast is unchecked and the empty string stands in. -/
def Utf8Value : NapiValue → CppString
  | string s => s
  | _ => []

/-- The update of a property list by `napi_set_property`: an existing key keeps its place
and takes the new value, a new key goes to the end. -/
def setProp (key : String) (v : NapiValue) :
    List (String × NapiValue) → List (String × NapiValue)
  | [] => [(key, v)]
  | (k, w) :: more => if k = key then (k, v) :: more else (k, w) :: setProp key v more

/-- The call `Napi::Object::Set(key, value)`. The methods call it only on the object they
have just created; a value that is no object is left as it is. -/
def Set : NapiValue → String → NapiValue → NapiValue
  | object props, key, v => object (setProp key v props)
  | other, _, _ => other

/-- The lookup of an own property in a property list. -/
def getProp (key : String) : List (String × NapiValue) → Option NapiValue
  | [] => none
  | (k, w) :: more => if k = key then some w else getProp key more

/-- The call `Napi::Object::Get(key)` as a caller reads the result: the own property,
`undefined` when there is none or when the value is no object. -/
def Get : NapiValue → String → NapiValue
  | object props, key => (getProp key props).getD undefined
  | _, _ => undefined

/-- The call `Napi::Object::Has(key)` as a caller reads the result: whether the value is an
object with that own property. -/
def Has : NapiValue → String → Bool
  | object props, key => (getProp key props).isSome
  | _, _ => false

end NapiValue

/-- The argument list `Napi::CallbackInfo` of a call from JavaScript. -/
structure CallbackInfo where
  args : List NapiValue

namespace CallbackInfo

/-- The count `info.Length()`. -/
def Length (info : CallbackInfo) : Nat :=
  info.args.length

/-- The access `info[i]`: the argument, `undefined` past the end. -/
def get (info : CallbackInfo) (i : Nat) : NapiValue :=
  info.args.getD i NapiValue.undefined

end CallbackInfo

/-- The class of a JavaScript error object made by node-addon-api. -/
inductive ErrorKind where
  | Error
  | TypeError
  | RangeError
  deriving DecidableEq, Repr

/-- A JavaScript exception: its class and its message. -/
structure JsError where
  kind : ErrorKind
  message : CppString
  deriving DecidableEq, Repr

/-- A call that a binding method makes on its `urlFilter` member. -/
inductive FilterCall where
  | AddPattern (pattern : CppString)
  | ShouldBlock (url : CppString)
  deriving DecidableEq, Repr

/-- The data members of `class EngineCore` (`engine_core.h`). -/
structure EngineCore where
  urlFilter : UrlFilter
  deriving DecidableEq, Repr

/-- What a binding method leaves behind: the `Napi::Value` it returns, the exception
pending in the environment (`ThrowAsJavaScriptException` sets it and returns), the
object after the call, and the calls it made on `urlFilter`, in order. -/
structure Outcome where
  value : NapiValue
  pending : Option JsError
  self : EngineCore
  filterCalls : List FilterCall

namespace EngineCore

/-- The exception both methods throw: `Napi::TypeError::New(env, "String expected")`. -/
def stringExpected : JsError :=
  { kind := ErrorKind.TypeError, message := lit "String expected" }

/-- The method `EngineCore::AddBlockPattern`. -/
def AddBlockPattern (self : EngineCore) (info : CallbackInfo) : Outcome :=
  if info.Length < 1 || !(info.get 0).IsString then
    { value := NapiValue.null, pending := some stringExpected, self := self,
      filterCalls := [] }
  else
    let pattern := (info.get 0).Utf8Value
    { value := NapiValue.null, pending := none,
      self := { urlFilter := self.urlFilter.AddPattern pattern },
      filterCalls := [FilterCall.AddPattern pattern] }

/-- The method `EngineCore::CheckUrl`. -/
def CheckUrl (self : EngineCore) (info : CallbackInfo) : Outcome :=
  if info.Length < 1 || !(info.get 0).IsString then
    { value := NapiValue.null, pending := some stringExpected, self := self,
      filterCalls := [] }
  else
    let url := (info.get 0).Utf8Value
    let blocked := self.urlFilter.ShouldBlock url
    let result := NapiValue.object []
    let result := result.Set "blocked" (NapiValue.boolean blocked)
    let result :=
      if blocked then result.Set "reason" (NapiValue.string (lit "Filtered by C++ Engine"))
      else result
    { value := result, pending := none, self := self,
      filterCalls := [FilterCall.ShouldBlock url] }

end EngineCore

/-- A JavaScript caller's sequence of `addBlockPattern(p)` calls with string arguments,
on a fresh engine. -/
def engineWith (patterns : List CppString) : EngineCore :=
  patterns.foldl
    (fun e p => (e.AddBlockPattern { args := [NapiValue.string p] }).self)
    { urlFilter := UrlFilter.new }


/-! ## `std::string::find` and containment -/

theorem findFrom_ne_none_iff (pat s : CppString) (pos : Nat) :
    findFrom pat s pos ≠ none ↔ pat <:+: s := by
  induction s generalizing pos with
  | nil => simp [findFrom]
  | cons c rest ih =>
    rw [findFrom, List.infix_cons_iff]
    by_cases h : pat.isPrefixOf (c :: rest) = true
    · have hp : pat <+: c :: rest := by simpa using h
      simp [h, hp]
    · have hp : ¬ pat <+: c :: rest := by simpa using h
      simp [h, hp, ih]

theorem find_ne_none_iff (s pat : CppString) : find s pat ≠ none ↔ pat <:+: s :=
  findFrom_ne_none_iff pat s 0

/-- The position `findFrom` returns is the lowest one at which the pattern can be read. -/
theorem findFrom_eq_some (pat s : CppString) (pos k : Nat) (h : findFrom pat s pos = some k) :
    ∃ i, k = pos + i ∧ i ≤ s.length ∧ pat <+: s.drop i ∧ ∀ j, j < i → ¬ pat <+: s.drop j := by
  induction s generalizing pos with
  | nil =>
    simp [findFrom] at h
    exact ⟨0, by omega, by simp, by simp [h.1], by omega⟩
  | cons c rest ih =>
    rw [findFrom] at h
    by_cases hp : pat.isPrefixOf (c :: rest) = true
    · simp [hp] at h
      refine ⟨0, by omega, by simp, ?_, by omega⟩
      simpa using hp
    · simp [hp] at h
      obtain ⟨i, hk, hi, hpre, hlow⟩ := ih (pos + 1) h
      refine ⟨i + 1, by omega, by simpa using hi, by simpa using hpre, ?_⟩
      intro j hj
      cases j with
      | zero => simpa using hp
      | succ j => simpa using hlow j (by omega)

theorem shouldBlockLoop_iff (url : CppString) (ps : List CppString) :
    UrlFilter.shouldBlockLoop url ps = true ↔ ∃ p ∈ ps, p <:+: url := by
  induction ps with
  | nil => simp [UrlFilter.shouldBlockLoop]
  | cons p more ih =>
    rw [UrlFilter.shouldBlockLoop]
    by_cases h : p <:+: url
    · have hf : find url p ≠ none := (find_ne_none_iff url p).2 h
      simp [hf, h]
    · have hf : find url p = none := by
        by_contra hne
        exact h ((find_ne_none_iff url p).1 hne)
      simp [hf, h, ih]

theorem ShouldBlock_iff (s : UrlFilter) (url : CppString) :
    s.ShouldBlock url = true ↔ ∃ p ∈ s.patterns, p <:+: url :=
  shouldBlockLoop_iff url s.patterns

theorem foldl_AddPattern_patterns (adds : List CppString) (s : UrlFilter) :
    (adds.foldl UrlFilter.AddPattern s).patterns = s.patterns ++ adds := by
  induction adds generalizing s with
  | nil => simp
  | cons p more ih => simp [ih, UrlFilter.AddPattern]


/-! ## The filter's contract -/

/-- C1: with `P` the patterns added by `AddPattern` since construction or since the last
`Clear`, `ShouldBlock(u)` returns true if and only if some pattern of `P` occurs in `u` as
a contiguous run of equal bytes. -/
theorem ShouldBlock_iff_pattern_occurs (s : UrlFilter) (P : List CppString) (u : CppString) :
    ((P.foldl UrlFilter.AddPattern UrlFilter.new).ShouldBlock u = true ↔
        ∃ p ∈ P, ∃ before after, before ++ p ++ after = u) ∧
    ((P.foldl UrlFilter.AddPattern s.Clear).ShouldBlock u = true ↔
        ∃ p ∈ P, ∃ before after, before ++ p ++ after = u) := by
  constructor
  · rw [ShouldBlock_iff, foldl_AddPattern_patterns]
    simp [UrlFilter.new, List.IsInfix]
  · rw [ShouldBlock_iff, foldl_AddPattern_patterns]
    simp [UrlFilter.Clear, List.IsInfix]

/-- C3: a filter with no pattern, a freshly constructed one in particular, blocks no URL,
the empty URL included. -/
theorem empty_filter_blocks_nothing (u : CppString) :
    UrlFilter.new.ShouldBlock u = false ∧
    UrlFilter.new.ShouldBlock [] = false ∧
    ∀ s : UrlFilter, s.patterns = [] → s.ShouldBlock u = false := by
  refine ⟨rfl, rfl, ?_⟩
  intro s hs
  simp [UrlFilter.ShouldBlock, hs, UrlFilter.shouldBlockLoop]

/-- C4: `Clear` twice leaves the state that `Clear` once leaves, and after `Clear` no URL
is blocked, whatever the state before (every state is reached by `AddPattern` calls on a
new filter). -/
theorem Clear_idempotent_and_unblocks (s : UrlFilter) (u : CppString) :
    s.Clear.Clear = s.Clear ∧
    s.Clear.patterns = [] ∧
    s.Clear.ShouldBlock u = false ∧
    s.patterns.foldl UrlFilter.AddPattern UrlFilter.new = s := by
  refine ⟨rfl, rfl, rfl, ?_⟩
  cases s with
  | mk ps =>
    have h := foldl_AddPattern_patterns ps UrlFilter.new
    cases hq : ps.foldl UrlFilter.AddPattern UrlFilter.new with
    | mk qs =>
      rw [hq] at h
      simp [UrlFilter.new] at h
      simp [h]

/-- C5: a URL blocked before `AddPattern(p)` is blocked after it, and a URL blocked after
it that was not blocked before contains `p`. -/
theorem AddPattern_monotone (s : UrlFilter) (p u : CppString) :
    (s.ShouldBlock u = true → (s.AddPattern p).ShouldBlock u = true) ∧
    ((s.AddPattern p).ShouldBlock u = true → s.ShouldBlock u = false →
        ∃ before after, before ++ p ++ after = u) := by
  constructor
  · intro h
    rw [ShouldBlock_iff] at h ⊢
    obtain ⟨q, hq, hu⟩ := h
    exact ⟨q, by simp [UrlFilter.AddPattern, hq], hu⟩
  · intro h hn
    rw [ShouldBlock_iff] at h
    obtain ⟨q, hq, hu⟩ := h
    simp only [UrlFilter.AddPattern, List.mem_append, List.mem_singleton] at hq
    rcases hq with hq | hq
    · have : s.ShouldBlock u = true := (ShouldBlock_iff s u).2 ⟨q, hq, hu⟩
      rw [hn] at this
      exact absurd this (by decide)
    · subst hq
      exact hu

theorem AddPattern_monotone_witness :
    (UrlFilter.new.AddPattern (lit "ads.")).ShouldBlock (lit "http://ads.tracker.com") = true ∧
    ((UrlFilter.new.AddPattern (lit "ads.")).AddPattern (lit "track")).ShouldBlock
        (lit "http://ads.tracker.com") = true ∧
    (UrlFilter.new.AddPattern (lit "track")).ShouldBlock (lit "http://ads.tracker.com") = true ∧
    UrlFilter.new.ShouldBlock (lit "http://ads.tracker.com") = false ∧
    ∃ before after, before ++ lit "track" ++ after = lit "http://ads.tracker.com" :=
  ⟨by decide,
   (AddPattern_monotone (UrlFilter.new.AddPattern (lit "ads.")) (lit "track")
      (lit "http://ads.tracker.com")).1 (by decide),
   by decide, by decide,
   (AddPattern_monotone UrlFilter.new (lit "track") (lit "http://ads.tracker.com")).2
      (by decide) (by decide)⟩

/-- C6: after `AddPattern("")` every URL is blocked, the empty one included, from any
state: `find` returns position 0 for the empty pattern, never `npos`. -/
theorem empty_pattern_blocks_everything (s : UrlFilter) (u : CppString) :
    (s.AddPattern []).ShouldBlock u = true ∧
    (s.AddPattern []).ShouldBlock [] = true ∧
    find u [] = some 0 := by
  refine ⟨?_, ?_, ?_⟩
  · exact (ShouldBlock_iff _ u).2 ⟨[], by simp [UrlFilter.AddPattern], ⟨[], u, by simp⟩⟩
  · exact (ShouldBlock_iff _ []).2 ⟨[], by simp [UrlFilter.AddPattern], ⟨[], [], by simp⟩⟩
  · cases u <;> simp [find, findFrom]

/-- C7: `AddPattern(p)` leaves the pattern list followed by `p`: one slot more, the slots
before it unchanged in content and order, the new last slot holding `p`, and one more
occurrence of `p` than before even when `p` was already there. -/
theorem AddPattern_appends_one_slot (s : UrlFilter) (p : CppString) :
    (s.AddPattern p).patterns = s.patterns ++ [p] ∧
    (s.AddPattern p).patterns.length = s.patterns.length + 1 ∧
    (∀ i, i < s.patterns.length → (s.AddPattern p).patterns[i]? = s.patterns[i]?) ∧
    (s.AddPattern p).patterns[s.patterns.length]? = some p ∧
    (s.AddPattern p).patterns.count p = s.patterns.count p + 1 := by
  refine ⟨rfl, by simp [UrlFilter.AddPattern], ?_, by simp [UrlFilter.AddPattern], ?_⟩
  · intro i hi
    simp [UrlFilter.AddPattern, List.getElem?_append_left hi]
  · simp [UrlFilter.AddPattern, List.count_append]

/-- C8: once `AddPattern(p)` has returned, every URL containing `p` is blocked, also after
any number of further `AddPattern` calls, as long as `Clear` is not called. -/
theorem added_pattern_is_observed (s : UrlFilter) (p u : CppString) (later : List CppString)
    (h : ∃ before after, before ++ p ++ after = u) :
    (later.foldl UrlFilter.AddPattern (s.AddPattern p)).ShouldBlock u = true := by
  rw [ShouldBlock_iff, foldl_AddPattern_patterns]
  exact ⟨p, by simp [UrlFilter.AddPattern], h⟩

theorem added_pattern_is_observed_witness :
    ([lit "x", lit "y"].foldl UrlFilter.AddPattern
        ((UrlFilter.new.AddPattern (lit "nomatch")).AddPattern (lit "ads."))).ShouldBlock
      (lit "http://ads.example.com/banner") = true :=
  added_pattern_is_observed (UrlFilter.new.AddPattern (lit "nomatch")) (lit "ads.")
    (lit "http://ads.example.com/banner") [lit "x", lit "y"]
    ⟨lit "http://", lit "example.com/banner", by decide⟩

/-! ## The binding's result -/

theorem CheckUrl_string (self : EngineCore) (u : CppString) (more : List NapiValue) :
    (self.CheckUrl { args := NapiValue.string u :: more }).value =
      if self.urlFilter.ShouldBlock u then
        NapiValue.object [("blocked", NapiValue.boolean true),
          ("reason", NapiValue.string (lit "Filtered by C++ Engine"))]
      else NapiValue.object [("blocked", NapiValue.boolean false)] := by
  cases hb : self.urlFilter.ShouldBlock u <;>
    simp [EngineCore.CheckUrl, CallbackInfo.Length, CallbackInfo.get, NapiValue.IsString,
      NapiValue.Utf8Value, NapiValue.Set, NapiValue.setProp, hb]

theorem guard_iff (info : CallbackInfo) :
    (info.Length < 1 || !(info.get 0).IsString) = true ↔
      (info.args = [] ∨ ∃ v more, info.args = v :: more ∧ ∀ s, v ≠ NapiValue.string s) := by
  cases info with
  | mk args =>
    cases args with
    | nil => simp [CallbackInfo.Length]
    | cons v more =>
      cases v <;> simp [CallbackInfo.Length, CallbackInfo.get, NapiValue.IsString]

theorem AddBlockPattern_rejects (self : EngineCore) (info : CallbackInfo)
    (h : (info.Length < 1 || !(info.get 0).IsString) = true) :
    self.AddBlockPattern info =
      { value := NapiValue.null, pending := some EngineCore.stringExpected, self := self,
        filterCalls := [] } := by
  unfold EngineCore.AddBlockPattern
  rw [if_pos h]

theorem AddBlockPattern_accepts (self : EngineCore) (info : CallbackInfo)
    (h : ¬ (info.Length < 1 || !(info.get 0).IsString) = true) :
    self.AddBlockPattern info =
      { value := NapiValue.null, pending := none,
        self := { urlFilter := self.urlFilter.AddPattern (info.get 0).Utf8Value },
        filterCalls := [FilterCall.AddPattern (info.get 0).Utf8Value] } := by
  unfold EngineCore.AddBlockPattern
  rw [if_neg h]

theorem CheckUrl_rejects (self : EngineCore) (info : CallbackInfo)
    (h : (info.Length < 1 || !(info.get 0).IsString) = true) :
    self.CheckUrl info =
      { value := NapiValue.null, pending := some EngineCore.stringExpected, self := self,
        filterCalls := [] } := by
  unfold EngineCore.CheckUrl
  rw [if_pos h]

theorem CheckUrl_accepts (self : EngineCore) (info : CallbackInfo)
    (h : ¬ (info.Length < 1 || !(info.get 0).IsString) = true) :
    (self.CheckUrl info).pending = none ∧ (self.CheckUrl info).self = self ∧
      (self.CheckUrl info).filterCalls = [FilterCall.ShouldBlock (info.get 0).Utf8Value] := by
  unfold EngineCore.CheckUrl
  rw [if_neg h]
  exact ⟨rfl, rfl, rfl⟩

/-- C10: `AddBlockPattern` and `CheckUrl` leave an exception pending if and only if the
first argument is missing or is not a string; it is then the `TypeError` "String expected",
the engine is unchanged and no call reaches the filter. With a string first argument no
exception is pending, `AddBlockPattern` returns null with the pattern appended, and
`CheckUrl` returns an object whose `blocked` is `ShouldBlock(url)` and which has a `reason`
exactly when `blocked` is true. -/
theorem binding_errors_only_on_non_string (self : EngineCore) (info : CallbackInfo) :
    ((self.AddBlockPattern info).pending ≠ none ↔
      (info.args = [] ∨ ∃ v more, info.args = v :: more ∧ ∀ s, v ≠ NapiValue.string s)) ∧
    ((self.CheckUrl info).pending ≠ none ↔
      (info.args = [] ∨ ∃ v more, info.args = v :: more ∧ ∀ s, v ≠ NapiValue.string s)) ∧
    ((info.args = [] ∨ ∃ v more, info.args = v :: more ∧ ∀ s, v ≠ NapiValue.string s) →
      (self.AddBlockPattern info).pending =
          some { kind := ErrorKind.TypeError, message := lit "String expected" } ∧
        (self.AddBlockPattern info).self = self ∧
        (self.AddBlockPattern info).filterCalls = [] ∧
        (self.CheckUrl info).pending =
          some { kind := ErrorKind.TypeError, message := lit "String expected" } ∧
        (self.CheckUrl info).self = self ∧
        (self.CheckUrl info).filterCalls = []) ∧
    (∀ s more, info.args = NapiValue.string s :: more →
      (self.AddBlockPattern info).pending = none ∧
        (self.AddBlockPattern info).value = NapiValue.null ∧
        (self.AddBlockPattern info).self.urlFilter.patterns = self.urlFilter.patterns ++ [s] ∧
        (self.AddBlockPattern info).filterCalls = [FilterCall.AddPattern s] ∧
        (self.CheckUrl info).pending = none ∧
        (self.CheckUrl info).self = self ∧
        (self.CheckUrl info).filterCalls = [FilterCall.ShouldBlock s] ∧
        (self.CheckUrl info).value.Get "blocked" =
          NapiValue.boolean (self.urlFilter.ShouldBlock s) ∧
        ((self.CheckUrl info).value.Has "reason" = true ↔
          self.urlFilter.ShouldBlock s = true)) := by
  have hg := guard_iff info
  refine ⟨?_, ?_, ?_, ?_⟩
  · rw [← hg]
    by_cases hc : (info.Length < 1 || !(info.get 0).IsString) = true
    · rw [AddBlockPattern_rejects self info hc]
      exact ⟨fun _ => hc, fun _ => Option.some_ne_none _⟩
    · rw [AddBlockPattern_accepts self info hc]
      exact ⟨fun h => absurd rfl h, fun h => absurd h hc⟩
  · rw [← hg]
    by_cases hc : (info.Length < 1 || !(info.get 0).IsString) = true
    · rw [CheckUrl_rejects self info hc]
      exact ⟨fun _ => hc, fun _ => Option.some_ne_none _⟩
    · rw [(CheckUrl_accepts self info hc).1]
      exact ⟨fun h => absurd rfl h, fun h => absurd h hc⟩
  · intro hbad
    have hc := hg.2 hbad
    rw [AddBlockPattern_rejects self info hc, CheckUrl_rejects self info hc]
    exact ⟨rfl, rfl, rfl, rfl, rfl, rfl⟩
  · intro s more hargs
    have hc : ¬ (info.Length < 1 || !(info.get 0).IsString) = true := by
      simp [CallbackInfo.Length, CallbackInfo.get, hargs, NapiValue.IsString]
    have hu : (info.get 0).Utf8Value = s := by
      simp [CallbackInfo.get, hargs, NapiValue.Utf8Value]
    have hv : (self.CheckUrl info).value =
        if self.urlFilter.ShouldBlock s then
          NapiValue.object [("blocked", NapiValue.boolean true),
            ("reason", NapiValue.string (lit "Filtered by C++ Engine"))]
        else NapiValue.object [("blocked", NapiValue.boolean false)] := by
      cases info with
      | mk args =>
        simp only at hargs
        subst hargs
        exact CheckUrl_string self s more
    obtain ⟨h1, h2, h3⟩ := CheckUrl_accepts self info hc
    rw [hu] at h3
    refine ⟨?_, ?_, ?_, ?_, h1, h2, h3, ?_, ?_⟩
    · rw [AddBlockPattern_accepts self info hc]
    · rw [AddBlockPattern_accepts self info hc]
    · rw [AddBlockPattern_accepts self info hc, hu]
      rfl
    · rw [AddBlockPattern_accepts self info hc, hu]
    · rw [hv]
      cases self.urlFilter.ShouldBlock s <;> simp [NapiValue.Get, NapiValue.getProp]
    · rw [hv]
      cases self.urlFilter.ShouldBlock s <;> simp [NapiValue.Has, NapiValue.getProp]

theorem binding_errors_only_on_non_string_witness :
    ((engineWith [lit "ads."]).AddBlockPattern { args := [NapiValue.number 7] }).pending =
        some { kind := ErrorKind.TypeError, message := lit "String expected" } ∧
    ((engineWith [lit "ads."]).AddBlockPattern { args := [NapiValue.number 7] }).self =
        engineWith [lit "ads."] ∧
    ((engineWith [lit "ads."]).CheckUrl { args := [] }).pending =
        some { kind := ErrorKind.TypeError, message := lit "String expected" } ∧
    ((engineWith [lit "ads."]).CheckUrl { args := [] }).filterCalls = [] ∧
    ((engineWith [lit "ads."]).AddBlockPattern
        { args := [NapiValue.string (lit "track")] }).self.urlFilter.patterns =
      [lit "ads.", lit "track"] ∧
    ((engineWith [lit "ads."]).CheckUrl
        { args := [NapiValue.string (lit "http://ads.example.com/banner")] }).value.Has
      "reason" = true :=
  have hnum := (binding_errors_only_on_non_string (engineWith [lit "ads."])
    { args := [NapiValue.number 7] }).2.2.1
      (Or.inr ⟨NapiValue.number 7, [], rfl, by intro s h; cases h⟩)
  have hnone := (binding_errors_only_on_non_string (engineWith [lit "ads."])
    { args := [] }).2.2.1 (Or.inl rfl)
  have hstr := (binding_errors_only_on_non_string (engineWith [lit "ads."])
    { args := [NapiValue.string (lit "track")] }).2.2.2 (lit "track") [] rfl
  have hurl := (binding_errors_only_on_non_string (engineWith [lit "ads."])
    { args := [NapiValue.string (lit "http://ads.example.com/banner")] }).2.2.2
      (lit "http://ads.example.com/banner") [] rfl
  ⟨hnum.1, hnum.2.1, hnone.2.2.2.1, hnone.2.2.2.2.2, hstr.2.2.1,
    hurl.2.2.2.2.2.2.2.2.2 (by decide)⟩

end Underlay
